import Mathlib

/-!
# A verification of `downsizer.py`

A shallow embedding of the CSS-downsizing helper: the configuration
loader/validator (`load_and_check_config`, `check_config`), the directory
scanner collecting `<dir>/*.html` glob patterns, the PurgeCSS invoker
(`purge_css_file`) and the gzip compressor (`compress_purged_file`), together
with the orchestrating `main`.  External effects (the filesystem walked by
`os.walk`, `os.path.isfile`, `platform.system()`, the subprocess runner and
the gzip encoder) enter as explicit parameters; everything else is translated
line for line from the Python source.
-/

namespace Downsizer

/-! ## Python string primitives, on explicit character lists -/

/-- `leadsWith pat l` is true when the list `l` starts with `pat`
(the building block for Python's `in`, `startswith` and `endswith`). -/
def leadsWith : List Char → List Char → Bool
  | [], _ => true
  | _ :: _, [] => false
  | p :: ps, c :: cs => p == c && leadsWith ps cs

/-- `hasSubL pat l` is Python's `pat in l`: `pat` occurs contiguously in `l`. -/
def hasSubL (pat : List Char) : List Char → Bool
  | [] => leadsWith pat []
  | c :: cs => leadsWith pat (c :: cs) || hasSubL pat cs

/-- Python's `needle in hay` on strings: plain substring containment. -/
def pyIn (needle hay : String) : Bool :=
  hasSubL needle.toList hay.toList

/-- Python's `s.endswith(suf)`. -/
def pyEndsWith (s suf : String) : Bool :=
  leadsWith suf.toList.reverse s.toList.reverse

/-- Python's `s.strip(' ')`: removes the space characters at BOTH ends
(leading and trailing), leaving interior spaces and other whitespace alone. -/
def pyStrip (s : String) : String :=
  String.mk (((s.toList.dropWhile (fun c => c == ' ')).reverse.dropWhile
    (fun c => c == ' ')).reverse)

/-- Python's `split(',')` on the character list: the pieces between commas
(`""` splits to `[""]`, a trailing comma yields a final empty piece). -/
def splitOnCommaChars : List Char → List (List Char)
  | [] => [[]]
  | c :: cs =>
    if c == ',' then [] :: splitOnCommaChars cs
    else
      match splitOnCommaChars cs with
      | [] => [[c]]
      | piece :: rest => (c :: piece) :: rest

/-- Python's `value.split(',')` on strings. -/
def pySplitComma (s : String) : List String :=
  (splitOnCommaChars s.toList).map String.mk

/-- `value.split(',')` followed by `strip(' ')` on every element, as `main`
does for `input_css_files` and `django_apps`. -/
def parseCommaList (s : String) : List String :=
  (pySplitComma s).map pyStrip

/-- Python's `os.path.basename`: everything after the last `/`. -/
def basename (path : String) : String :=
  String.mk ((path.toList.reverse.takeWhile (fun c => !(c == '/'))).reverse)

/-- The head of Python's `l.split(pat)`: the characters strictly before the
first occurrence of `pat`, or all of `l` when `pat` does not occur. -/
def cutAtFirst (pat : List Char) : List Char → List Char
  | [] => []
  | c :: cs => if leadsWith pat (c :: cs) then [] else c :: cutAtFirst pat cs

/-! ## The directory scanner (`main`, lines 34-42) -/

/-- One visited directory of `os.walk`: its path and the names of the files it
directly contains (files in subdirectories belong to other entries). -/
abbrev WalkEntry := String × List String

/-- A directory tree: direct files, then named subdirectories. -/
inductive FSTree where
  | mk (files : List String) (subdirs : List (String × FSTree))

mutual

/-- `os.walk` in top-down order: the directory itself first, then its
subdirectories in order, each path built with a `/` separator. -/
def osWalk (root : String) : FSTree → List WalkEntry
  | FSTree.mk files subdirs => (root, files) :: osWalkChildren root subdirs

/-- The walk of a list of named subdirectories of `root`. -/
def osWalkChildren (root : String) : List (String × FSTree) → List WalkEntry
  | [] => []
  | (name, t) :: rest => osWalk (root ++ "/" ++ name) t ++ osWalkChildren root rest

end

/-- The scanner's inclusion test for one visited directory, exactly as the two
nested `if`s of `main`: some configured app name is a substring of the path,
`"around"` is not, and some direct file name ends in `.html`. -/
def scanIncl (django_apps : List String) (root : String) (files : List String) : Bool :=
  if django_apps.any (fun app => pyIn app root) && !(pyIn "around" root) then
    files.any (fun file => pyEndsWith file ".html")
  else
    false

/-- The accumulating loop of `main` appending `f"{root}/*.html"` for every
qualifying directory of the walk. -/
def collectGlobsLoop (django_apps : List String) (acc : List String) :
    List WalkEntry → List String
  | [] => acc
  | (root, files) :: rest =>
    if scanIncl django_apps root files then
      collectGlobsLoop django_apps (acc ++ [root ++ "/*.html"]) rest
    else
      collectGlobsLoop django_apps acc rest

/-- `html_glob_patterns` as `main` builds it from the walk. -/
def html_glob_patterns (django_apps : List String) (walk : List WalkEntry) : List String :=
  collectGlobsLoop django_apps [] walk

/-! ## The purge invoker (`purge_css_file`, lines 59-100) -/

/-- `subprocess.run(..., capture_output=True)`: the captured streams and the
exit status of the external tool. -/
structure CompletedProcess where
  stdout : String
  stderr : String
  returncode : Int
deriving DecidableEq

/-- The single quote character wrapping the non-Windows shell command. -/
def shellQuote : String :=
  String.singleton (Char.ofNat 39)

/-- The output filename computed by `purge_css_file`:
`os.path.basename(css_file).split('.css')[0] + "-purged.css"`. -/
def purged_output_filename (css_file : String) : String :=
  String.mk (cutAtFirst ".css".toList (basename css_file).toList) ++ "-purged.css"

/-- Everything one call of `purge_css_file` does: what it printed, the
PurgeCSS command it built, the platform-wrapped command it executed, the
captured process result, and the returned output filename. -/
structure PurgeTrace where
  logged : List String
  purgecssCommand : String
  npxCommand : String
  result : CompletedProcess
  outputFilename : String

/-- `purge_css_file` line for line.  `cssFileExists` stands for
`os.path.isfile(css_file)`, `isWindows` for `platform.system() == 'Windows'`,
and `run` for `subprocess.run(..., shell=True, text=True,
capture_output=True)`; the command is executed unconditionally. -/
def purge_css_file (glob_patterns : List String) (css_file : String)
    (output_dir : String) (cssFileExists : Bool) (isWindows : Bool)
    (run : String → CompletedProcess) : PurgeTrace :=
  let output_filename := purged_output_filename css_file
  let purgecss_command :=
    "purgecss --css " ++ css_file ++ " --content " ++
      String.intercalate " " glob_patterns ++ " --output " ++ output_dir ++ "/" ++
      output_filename
  let logged :=
    if !cssFileExists then
      ["Error: CSS File " ++ css_file ++ " does not exist. Please check the file paths."]
    else
      ["Running PurgeCSS command: " ++ purgecss_command]
  let npx_command :=
    if isWindows then
      "npx " ++ purgecss_command
    else
      "bash -c " ++ shellQuote ++ "source $HOME/.nvm/nvm.sh && npx " ++
        purgecss_command ++ shellQuote
  { logged := logged
    purgecssCommand := purgecss_command
    npxCommand := npx_command
    result := run npx_command
    outputFilename := output_filename }

/-- The spec's own words for the destination name: the basename with its
`.css` extension removed, followed by `-purged.css` (to be compared with the
source's `purged_output_filename`). -/
def spec_output_filename (css_file : String) : String :=
  (if pyEndsWith (basename css_file) ".css" then
    String.mk ((basename css_file).toList.take ((basename css_file).toList.length - 4))
  else
    basename css_file) ++ "-purged.css"

/-! ## The compressor (`compress_purged_file`, lines 103-117) -/

/-- `shutil.copyfileobj`: the source bytes are streamed into the destination
in chunks of `n + 1` bytes (the chunk size is positive but otherwise
irrelevant, so it stays a parameter). -/
def copyFileObj (n : Nat) : List Nat → List Nat
  | [] => []
  | b :: bs => (b :: bs.take n) ++ copyFileObj n (bs.drop n)
termination_by l => l.length
decreasing_by simp [List.length_drop]; omega

/-- What one call of `compress_purged_file` does: the path it reads, the
`.gz` path it writes, the bytes that land there (the gzip encoding of the
streamed copy of the purged file's bytes), and the value it returns. -/
structure CompressAction where
  sourcePath : String
  gzPath : String
  gzBytes : List Nat
  returned : String
deriving DecidableEq

/-- `compress_purged_file` line for line.  `purgedBytes` are the bytes of the
purged file on disk, `gzipEncode` the (black-box, lossless) gzip encoder, and
`chunk` the copy chunk parameter. -/
def compress_purged_file (output_dir : String) (purged_file : String)
    (purgedBytes : List Nat) (chunk : Nat) (gzipEncode : List Nat → List Nat) :
    CompressAction :=
  let filepath := output_dir ++ "/" ++ purged_file
  { sourcePath := filepath
    gzPath := filepath ++ ".gz"
    gzBytes := gzipEncode (copyFileObj chunk purgedBytes)
    returned := filepath }

/-! ## The configuration loader (`load_and_check_config` / `check_config`,
lines 120-175) -/

/-- The parsed `[SETTINGS]` section of the config file: its options in order.
A file without that section is the empty list. -/
structure ConfigParser where
  settings : List (String × String)
deriving DecidableEq

/-- `config_object.has_option('SETTINGS', key)`. -/
def has_option (config : ConfigParser) (key : String) : Bool :=
  (config.settings.lookup key).isSome

/-- `config_object.get('SETTINGS', key)` (only reached when the option is
present). -/
def configGet (config : ConfigParser) (key : String) : String :=
  (config.settings.lookup key).getD ""

/-- The `InvalidConfigFile` exception, tagged by the raise site; each
constructor carries the exact message text the code formats. -/
inductive ConfigError where
  | notFound (message : String)
  | readError (message : String)
  | checkError (message : String)
  | invalidConfig (message : String)
deriving DecidableEq

/-- What `open(filename)` followed by `config_object.read_file(f)` produced:
the file was absent (`FileNotFoundError`), reading raised some other
exception, or the parsed configuration. -/
inductive ReadOutcome where
  | notFound
  | readFail (message : String)
  | parsed (config : ConfigParser)

/-- The required-key loop of `check_config`: the first of the four keys that
is absent or empty, if any (`get` is only evaluated when `has_option` holds,
as Python's `or` short-circuits). -/
def firstBadKey (config : ConfigParser) : List String → Option String
  | [] => none
  | key :: rest =>
    if !(has_option config key) || (configGet config key == "") then some key
    else firstBadKey config rest

/-- `options_required_keys` as listed in `check_config`. -/
def options_required_keys : List String :=
  ["input_css_files", "output_directory", "django_directory", "django_apps"]

/-- `check_config`: returns `True`, or raises `InvalidConfigFile` — the inner
`Missing or empty key ...` exception is caught by the `except` clause and
re-raised wrapped in `Error while checking config: ...`.  There is no path
returning `False`. -/
def check_config (config : ConfigParser) : Except ConfigError Bool :=
  match firstBadKey config options_required_keys with
  | some key =>
    Except.error (ConfigError.checkError
      ("Error while checking config: Missing or empty key " ++ key ++ " in [OPTIONS]"))
  | none => Except.ok true

/-- `load_and_check_config`: `Except.error` is a raised `InvalidConfigFile`
propagating to the caller, `Except.ok none` would be a `return None` (the
annotated `Optional` result its docstring promises on failure — no branch
produces it), `Except.ok (some c)` the validated configuration. -/
def load_and_check_config (fileRead : ReadOutcome) (filename : String) :
    Except ConfigError (Option ConfigParser) :=
  match fileRead with
  | ReadOutcome.notFound =>
    Except.error (ConfigError.notFound ("Config file " ++ filename ++ " not found."))
  | ReadOutcome.readFail msg =>
    Except.error (ConfigError.readError
      ("An error occurred while reading the config file: " ++ msg))
  | ReadOutcome.parsed config_object =>
    match check_config config_object with
    | Except.error e => Except.error e
    | Except.ok true => Except.ok (some config_object)
    | Except.ok false =>
      Except.error (ConfigError.invalidConfig ("Invalid configuration in " ++ filename))

/-- Does `check_config` return `False`? (decides the shape of its result). -/
def isOkFalse (r : Except ConfigError Bool) : Bool :=
  match r with
  | Except.ok false => true
  | _ => false

/-- Does `load_and_check_config` end in the `Invalid configuration in ...`
raise of its `else` branch? -/
def isInvalidConfigError (r : Except ConfigError (Option ConfigParser)) : Bool :=
  match r with
  | Except.error (ConfigError.invalidConfig _) => true
  | _ => false

/-! ## The orchestrator (`main`, lines 10-56) -/

/-- What `main` does for one configured CSS file: either the success branch
(compression performed; the printed purged filename and the confirmation
value of `compress_purged_file`) or the failure branch (both captured streams
printed verbatim, no compression). -/
inductive FileEvent where
  | compressed (purgedFilename : String) (confirmedPath : String)
  | reportedFailure (stdoutText : String) (stderrText : String)
deriving DecidableEq

/-- The body of `main`'s per-CSS-file loop: purge, then branch on whether the
captured stdout and stderr are both empty strings. -/
def process_css_file (run : String → CompletedProcess) (glob_patterns : List String)
    (output_dir : String) (isfile : String → Bool) (isWindows : Bool)
    (bytesOf : String → List Nat) (chunk : Nat)
    (gzipEncode : List Nat → List Nat) (css_file : String) : FileEvent :=
  let tr := purge_css_file glob_patterns css_file output_dir (isfile css_file)
    isWindows run
  if tr.result.stdout == "" && tr.result.stderr == "" then
    FileEvent.compressed tr.outputFilename
      (compress_purged_file output_dir tr.outputFilename
        (bytesOf (output_dir ++ "/" ++ tr.outputFilename)) chunk gzipEncode).returned
  else
    FileEvent.reportedFailure tr.result.stdout tr.result.stderr

/-- `main`'s loop over the configured CSS files, in list order. -/
def mainLoop (run : String → CompletedProcess) (glob_patterns : List String)
    (output_dir : String) (isfile : String → Bool) (isWindows : Bool)
    (bytesOf : String → List Nat) (chunk : Nat)
    (gzipEncode : List Nat → List Nat) (css_files : List String) : List FileEvent :=
  css_files.map (process_css_file run glob_patterns output_dir isfile isWindows
    bytesOf chunk gzipEncode)

/-- The environment `main` runs in: the config file read, the project tree
under `django_directory`, and the external capabilities. -/
structure Env where
  configRead : ReadOutcome
  projectTree : FSTree
  isfile : String → Bool
  isWindows : Bool
  run : String → CompletedProcess
  bytesOf : String → List Nat
  chunk : Nat
  gzipEncode : List Nat → List Nat

/-- How a run of `main` ends: the `if not config` early return (printing
`Config file set incorrectly.`), normal completion with the per-file events,
or an exception that propagates out of `main` uncaught. -/
inductive MainResult where
  | configAbort
  | completed (events : List FileEvent)
  | uncaught (e : ConfigError)
deriving DecidableEq

/-- `main` line for line: load and validate the configuration, split the two
comma-separated values, walk the tree once, then process each CSS file. -/
def mainRun (env : Env) : MainResult :=
  match load_and_check_config env.configRead "settings.cfg" with
  | Except.error e => MainResult.uncaught e
  | Except.ok none => MainResult.configAbort
  | Except.ok (some config) =>
    let django_project_directory := configGet config "django_directory"
    let css_files := parseCommaList (configGet config "input_css_files")
    let output_dir := configGet config "output_directory"
    let django_apps := parseCommaList (configGet config "django_apps")
    let patterns := html_glob_patterns django_apps
      (osWalk django_project_directory env.projectTree)
    MainResult.completed (mainLoop env.run patterns output_dir env.isfile
      env.isWindows env.bytesOf env.chunk env.gzipEncode css_files)

/-- A run whose `settings.cfg` parses to an empty `[SETTINGS]` section
(every required key missing); the other capabilities are inert. -/
def emptySettingsEnv : Env where
  configRead := ReadOutcome.parsed (ConfigParser.mk [])
  projectTree := FSTree.mk [] []
  isfile := fun _ => false
  isWindows := false
  run := fun _ => CompletedProcess.mk "" "" 0
  bytesOf := fun _ => []
  chunk := 0
  gzipEncode := fun bs => bs

/-! ## Basic lemmas about the string primitives -/

theorem leadsWith_iff (pat l : List Char) :
    leadsWith pat l = true ↔ ∃ r, l = pat ++ r := by
  induction pat generalizing l with
  | nil => simp [leadsWith]
  | cons p ps ih =>
    cases l with
    | nil => simp [leadsWith]
    | cons c cs =>
      simp only [leadsWith, Bool.and_eq_true, beq_iff_eq, ih, List.cons_append,
        List.cons.injEq]
      constructor
      · rintro ⟨rfl, r, rfl⟩
        exact ⟨r, rfl, rfl⟩
      · rintro ⟨r, rfl, rfl⟩
        exact ⟨rfl, r, rfl⟩

theorem hasSubL_iff (pat l : List Char) :
    hasSubL pat l = true ↔ ∃ a b, l = a ++ pat ++ b := by
  induction l with
  | nil =>
    simp only [hasSubL, leadsWith_iff]
    constructor
    · rintro ⟨r, hr⟩
      exact ⟨[], r, hr⟩
    · rintro ⟨a, b, h⟩
      obtain ⟨hap, hb⟩ := List.append_eq_nil.mp h.symm
      obtain ⟨ha, hp⟩ := List.append_eq_nil.mp hap
      exact ⟨[], by simp [hp]⟩
  | cons c cs ih =>
    simp only [hasSubL, Bool.or_eq_true, leadsWith_iff, ih]
    constructor
    · rintro (⟨r, hr⟩ | ⟨a, b, hab⟩)
      · exact ⟨[], r, by simpa using hr⟩
      · exact ⟨c :: a, b, by simp [hab]⟩
    · rintro ⟨a, b, hab⟩
      cases a with
      | nil => exact Or.inl ⟨b, by simpa using hab⟩
      | cons a0 arest =>
        simp only [List.cons_append, List.cons.injEq] at hab
        exact Or.inr ⟨arest, b, hab.2⟩

theorem pyIn_iff (needle hay : String) :
    pyIn needle hay = true ↔ ∃ a b, hay.toList = a ++ needle.toList ++ b := by
  simpa [pyIn] using hasSubL_iff needle.toList hay.toList

theorem pyEndsWith_iff (s suf : String) :
    pyEndsWith s suf = true ↔ ∃ stem, s.toList = stem ++ suf.toList := by
  simp only [pyEndsWith, leadsWith_iff]
  constructor
  · rintro ⟨r, hr⟩
    refine ⟨r.reverse, ?_⟩
    have := congrArg List.reverse hr
    simpa using this
  · rintro ⟨stem, hstem⟩
    refine ⟨stem.reverse, ?_⟩
    rw [hstem]
    simp

/-! ## The scanner's loop, as filter-then-map -/

theorem collectGlobsLoop_eq (django_apps : List String) (walk : List WalkEntry)
    (acc : List String) :
    collectGlobsLoop django_apps acc walk =
      acc ++ (walk.filter (fun e => scanIncl django_apps e.1 e.2)).map
        (fun e => e.1 ++ "/*.html") := by
  induction walk generalizing acc with
  | nil => simp [collectGlobsLoop]
  | cons e rest ih =>
    obtain ⟨root, files⟩ := e
    by_cases h : scanIncl django_apps root files
    · simp [collectGlobsLoop, h, ih, List.filter_cons]
    · simp [collectGlobsLoop, h, ih, List.filter_cons]

/-- The inclusion test unfolded into its three conditions, each phrased as the
mathematical substring / suffix property it decides. -/
theorem scanIncl_iff (django_apps : List String) (root : String) (files : List String) :
    scanIncl django_apps root files = true ↔
      (∃ app ∈ django_apps, ∃ a b, root.toList = a ++ app.toList ++ b)
      ∧ ¬ (∃ a b, root.toList = a ++ "around".toList ++ b)
      ∧ (∃ file ∈ files, ∃ stem, file.toList = stem ++ ".html".toList) := by
  unfold scanIncl
  by_cases hc : django_apps.any (fun app => pyIn app root) && !(pyIn "around" root)
  · rw [if_pos hc]
    simp only [Bool.and_eq_true, Bool.not_eq_true', List.any_eq_true] at hc
    obtain ⟨happ, haround⟩ := hc
    simp only [List.any_eq_true, pyEndsWith_iff]
    constructor
    · intro hfile
      refine ⟨?_, ?_, hfile⟩
      · obtain ⟨app, hmem, hin⟩ := happ
        exact ⟨app, hmem, (pyIn_iff app root).mp hin⟩
      · intro hsub
        have : pyIn "around" root = true := (pyIn_iff "around" root).mpr hsub
        simp [this] at haround
    · rintro ⟨-, -, hfile⟩
      exact hfile
  · rw [if_neg hc]
    simp only [Bool.and_eq_true, Bool.not_eq_true', List.any_eq_true, not_and_or] at hc
    constructor
    · intro h
      exact absurd h (by simp)
    · rintro ⟨happ, haround, -⟩
      rcases hc with hc | hc
      · push_neg at hc
        obtain ⟨app, hmem, hsub⟩ := happ
        have := hc app hmem
        simp [(pyIn_iff app root).mpr hsub] at this
      · exact absurd ((pyIn_iff "around" root).mp (by simpa using hc)) haround

/-- C1: for every root directory and app-name list, the scan of the walked
tree returns exactly the globs `root ++ "/*.html"` of the qualifying
directories, in traversal order (filter-then-map of the walk), so for a tree
with N qualifying directories it has exactly N elements. -/
theorem scanner_one_glob_per_qualifying_dir (top : String) (t : FSTree)
    (django_apps : List String) :
    html_glob_patterns django_apps (osWalk top t) =
      ((osWalk top t).filter (fun e => scanIncl django_apps e.1 e.2)).map
        (fun e => e.1 ++ "/*.html")
    ∧ (html_glob_patterns django_apps (osWalk top t)).length =
        (osWalk top t).countP (fun e => scanIncl django_apps e.1 e.2) := by
  refine ⟨by simpa using collectGlobsLoop_eq django_apps (osWalk top t) [], ?_⟩
  rw [html_glob_patterns, collectGlobsLoop_eq]
  simp [List.countP_eq_length_filter]

/-- C2: a glob is emitted for a visited directory if and only if the
directory's path contains some configured app fragment as a plain substring,
does not contain the substring "around", and the directory directly contains
a file ending in ".html" (entries of the walk pair a directory only with its
own direct files). -/
theorem scanner_inclusion_iff (top : String) (t : FSTree)
    (django_apps : List String) (g : String) :
    g ∈ html_glob_patterns django_apps (osWalk top t) ↔
      ∃ root files, (root, files) ∈ osWalk top t
        ∧ (∃ app ∈ django_apps, ∃ a b, root.toList = a ++ app.toList ++ b)
        ∧ ¬ (∃ a b, root.toList = a ++ "around".toList ++ b)
        ∧ (∃ file ∈ files, ∃ stem, file.toList = stem ++ ".html".toList)
        ∧ g = root ++ "/*.html" := by
  rw [html_glob_patterns, collectGlobsLoop_eq]
  simp only [List.nil_append, List.mem_map, List.mem_filter]
  constructor
  · rintro ⟨⟨root, files⟩, ⟨hmem, hincl⟩, rfl⟩
    obtain ⟨happ, haround, hfile⟩ := (scanIncl_iff django_apps root files).mp hincl
    exact ⟨root, files, hmem, happ, haround, hfile, rfl⟩
  · rintro ⟨root, files, hmem, happ, haround, hfile, rfl⟩
    exact ⟨(root, files), ⟨hmem,
      (scanIncl_iff django_apps root files).mpr ⟨happ, haround, hfile⟩⟩, rfl⟩

/-! ## `cutAtFirst` cuts at the first occurrence -/

/-- The cut part is a prefix of the input: appending the remainder restores it. -/
theorem cutAtFirst_append_drop (pat l : List Char) :
    cutAtFirst pat l ++ l.drop (cutAtFirst pat l).length = l := by
  induction l with
  | nil => simp [cutAtFirst]
  | cons c cs ih =>
    by_cases h : leadsWith pat (c :: cs) = true
    · simp [cutAtFirst, h]
    · simp only [cutAtFirst, if_neg h, List.length_cons, List.cons_append,
        List.drop_succ_cons, List.cons.injEq, true_and]
      exact ih

/-- The remainder starts with the pattern, or there was no occurrence at all
and the whole input is kept. -/
theorem cutAtFirst_occurrence (pat l : List Char) :
    leadsWith pat (l.drop (cutAtFirst pat l).length) = true
    ∨ (cutAtFirst pat l = l ∧ hasSubL pat l = false) := by
  induction l with
  | nil =>
    by_cases h : leadsWith pat [] = true
    · exact Or.inl (by simpa [cutAtFirst] using h)
    · exact Or.inr ⟨rfl, by simpa [hasSubL] using h⟩
  | cons c cs ih =>
    by_cases h : leadsWith pat (c :: cs) = true
    · exact Or.inl (by simp [cutAtFirst, h])
    · rcases ih with ihl | ⟨hcut, hsub⟩
      · exact Or.inl (by simpa [cutAtFirst, h, List.drop_succ_cons] using ihl)
      · refine Or.inr ⟨by simp [cutAtFirst, h, hcut], ?_⟩
        simp only [hasSubL, Bool.or_eq_false_iff]
        exact ⟨by simpa using h, hsub⟩

/-- No occurrence of the pattern starts strictly inside the cut part: the cut
really is at the FIRST occurrence. -/
theorem cutAtFirst_min (pat l : List Char) (i : Nat)
    (hi : i < (cutAtFirst pat l).length) :
    leadsWith pat (l.drop i) = false := by
  induction l generalizing i with
  | nil => simp [cutAtFirst] at hi
  | cons c cs ih =>
    by_cases h : leadsWith pat (c :: cs) = true
    · simp [cutAtFirst, h] at hi
    · rw [cutAtFirst, if_neg h] at hi
      cases i with
      | zero => simpa using h
      | succ j =>
        rw [List.drop_succ_cons]
        exact ih j (by simpa using hi)

/-! ## The chunked stream copy loses nothing -/

theorem copyFileObj_eq (n : Nat) (l : List Nat) : copyFileObj n l = l := by
  induction l using copyFileObj.induct n with
  | case1 => rw [copyFileObj]
  | case2 b bs ih =>
    rw [copyFileObj, ih]
    simp

/-! ## `pyStrip` removes exactly the spaces at both ends -/

/-- Dropping leading spaces: the input is that many spaces followed by the
remainder, whose first character (if any) is not a space. -/
theorem dropWhile_space_decomp (l : List Char) :
    ∃ a : Nat, l = List.replicate a ' ' ++ l.dropWhile (fun c => c == ' ')
      ∧ (l.dropWhile (fun c => c == ' ')).head? ≠ some ' ' := by
  induction l with
  | nil => exact ⟨0, rfl, by simp⟩
  | cons c cs ih =>
    by_cases hc : c = ' '
    · obtain ⟨a, ha, hh⟩ := ih
      subst hc
      refine ⟨a + 1, ?_, ?_⟩
      · simpa [List.dropWhile_cons, List.replicate_succ] using ha
      · simpa [List.dropWhile_cons] using hh
    · refine ⟨0, ?_, ?_⟩
      · simp [List.dropWhile_cons, hc]
      · simp only [List.dropWhile_cons, beq_iff_eq, if_neg hc, List.head?_cons,
          ne_eq, Option.some.injEq]
        exact hc

/-- `pyStrip` splits its input into leading spaces, the kept middle, and
trailing spaces, and the middle neither starts nor ends with a space. -/
theorem pyStrip_decomp (t : String) :
    ∃ a b : Nat,
      t.toList = List.replicate a ' ' ++ (pyStrip t).toList ++ List.replicate b ' '
      ∧ (pyStrip t).toList.head? ≠ some ' '
      ∧ (pyStrip t).toList.getLast? ≠ some ' ' := by
  obtain ⟨a, ha, hh⟩ := dropWhile_space_decomp t.toList
  obtain ⟨b, hb, hh2⟩ :=
    dropWhile_space_decomp (t.toList.dropWhile (fun c => c == ' ')).reverse
  have hps : (pyStrip t).toList =
      ((t.toList.dropWhile (fun c => c == ' ')).reverse.dropWhile
        (fun c => c == ' ')).reverse := rfl
  have hm : t.toList.dropWhile (fun c => c == ' ') =
      ((t.toList.dropWhile (fun c => c == ' ')).reverse.dropWhile
        (fun c => c == ' ')).reverse ++ List.replicate b ' ' := by
    have := congrArg List.reverse hb
    simpa [List.reverse_append, List.reverse_replicate] using this
  refine ⟨a, b, ?_, ?_, ?_⟩
  · calc t.toList
        = List.replicate a ' ' ++ t.toList.dropWhile (fun c => c == ' ') := ha
      _ = List.replicate a ' ' ++ ((pyStrip t).toList ++ List.replicate b ' ') := by
          rw [hm, ← hps]
      _ = List.replicate a ' ' ++ (pyStrip t).toList ++ List.replicate b ' ' := by
          rw [List.append_assoc]
  · rw [hps]
    rcases hq : (t.toList.dropWhile (fun c => c == ' ')).reverse.dropWhile
        (fun c => c == ' ') with _ | ⟨q0, qs⟩
    · simp
    · have hne : ((q0 :: qs).reverse : List Char) ≠ [] := by simp
      obtain ⟨x, xs, hx⟩ := List.exists_cons_of_ne_nil hne
      rw [hx, List.head?_cons]
      intro hx'
      apply hh
      rw [hm, hq, hx, List.cons_append, List.head?_cons]
      exact hx'
  · rw [hps, List.getLast?_reverse]
    exact hh2

/-! ## The claims about the purge invoker and the compressor -/

/-- C5 counterexample: for the source path "a.css.css" the code computes
"a-purged.css" (Python's `split('.css')[0]` truncates at the FIRST occurrence
of ".css"), while the basename with its ".css" extension removed would give
"a.css-purged.css". -/
theorem purged_filename_cex :
    (purge_css_file [] "a.css.css" "out" true false
        (fun _ => CompletedProcess.mk "" "" 0)).outputFilename = "a-purged.css"
    ∧ spec_output_filename "a.css.css" = "a.css-purged.css"
    ∧ ((purge_css_file [] "a.css.css" "out" true false
        (fun _ => CompletedProcess.mk "" "" 0)).outputFilename
          == spec_output_filename "a.css.css") = false := by
  refine ⟨?_, ?_, ?_⟩ <;> decide

/-- C5 (amended): the destination name returned by `purge_css_file` (and
placed after `--output <output_dir>/` in the command) is the basename
truncated at the FIRST occurrence of ".css" — the truncation point is a real
occurrence unless there is none, in which case the whole basename is kept,
and no occurrence starts earlier — followed by "-purged.css". -/
theorem purged_filename_amended (glob_patterns : List String)
    (css_file output_dir : String) (cssFileExists isWindows : Bool)
    (run : String → CompletedProcess) :
    (purge_css_file glob_patterns css_file output_dir cssFileExists isWindows
          run).outputFilename
        = String.mk (cutAtFirst ".css".toList (basename css_file).toList) ++
            "-purged.css"
    ∧ (purge_css_file glob_patterns css_file output_dir cssFileExists isWindows
          run).purgecssCommand
        = ("purgecss --css " ++ css_file ++ " --content " ++
            String.intercalate " " glob_patterns ++ " --output " ++ output_dir) ++
            "/" ++
            (purge_css_file glob_patterns css_file output_dir cssFileExists
              isWindows run).outputFilename
    ∧ cutAtFirst ".css".toList (basename css_file).toList ++
          (basename css_file).toList.drop
            (cutAtFirst ".css".toList (basename css_file).toList).length
        = (basename css_file).toList
    ∧ (leadsWith ".css".toList
          ((basename css_file).toList.drop
            (cutAtFirst ".css".toList (basename css_file).toList).length) = true
        ∨ (cutAtFirst ".css".toList (basename css_file).toList
              = (basename css_file).toList
            ∧ hasSubL ".css".toList (basename css_file).toList = false))
    ∧ (∀ i, i < (cutAtFirst ".css".toList (basename css_file).toList).length →
        leadsWith ".css".toList ((basename css_file).toList.drop i) = false) :=
  ⟨rfl, rfl, cutAtFirst_append_drop _ _, cutAtFirst_occurrence _ _,
    fun i hi => cutAtFirst_min _ _ i hi⟩

/-- C9: with the CSS source absent (`os.path.isfile` false), `purge_css_file`
prints the error line instead of the command line, but the command it builds,
the execution of that command, the captured result and the returned filename
are all exactly as when the source exists. -/
theorem purge_missing_source_proceeds (glob_patterns : List String)
    (css_file output_dir : String) (isWindows : Bool)
    (run : String → CompletedProcess) :
    (purge_css_file glob_patterns css_file output_dir false isWindows run).logged
        = ["Error: CSS File " ++ css_file ++
            " does not exist. Please check the file paths."]
    ∧ (purge_css_file glob_patterns css_file output_dir false isWindows
          run).npxCommand
        = (purge_css_file glob_patterns css_file output_dir true isWindows
            run).npxCommand
    ∧ (purge_css_file glob_patterns css_file output_dir false isWindows run).result
        = run ((purge_css_file glob_patterns css_file output_dir false isWindows
            run).npxCommand)
    ∧ (purge_css_file glob_patterns css_file output_dir false isWindows run).result
        = (purge_css_file glob_patterns css_file output_dir true isWindows
            run).result
    ∧ (purge_css_file glob_patterns css_file output_dir false isWindows
          run).outputFilename
        = purged_output_filename css_file :=
  ⟨rfl, rfl, rfl, rfl, rfl⟩

/-- C7: `compress_purged_file` writes the compressed bytes to the purged
file's path with ".gz" appended, yet returns the purged (uncompressed) path,
which is a different path. -/
theorem compress_paths_and_return (output_dir purged_file : String)
    (purgedBytes : List Nat) (chunk : Nat) (gzipEncode : List Nat → List Nat) :
    (compress_purged_file output_dir purged_file purgedBytes chunk
          gzipEncode).gzPath
        = output_dir ++ "/" ++ purged_file ++ ".gz"
    ∧ (compress_purged_file output_dir purged_file purgedBytes chunk
          gzipEncode).returned
        = output_dir ++ "/" ++ purged_file
    ∧ (compress_purged_file output_dir purged_file purgedBytes chunk
          gzipEncode).returned
        ≠ (compress_purged_file output_dir purged_file purgedBytes chunk
            gzipEncode).gzPath := by
  refine ⟨rfl, rfl, ?_⟩
  intro hcontra
  have hlen := congrArg String.length hcontra
  have h3 : (".gz" : String).length = 3 := rfl
  simp only [compress_purged_file, String.length_append, h3] at hlen
  omega

/-- C8: the bytes that reach the `.gz` file are the gzip encoding of the
purged file's bytes, streamed chunk by chunk without loss; decoding with any
left inverse of the encoder reproduces those bytes exactly. -/
theorem compress_roundtrip (gzipEncode gzipDecode : List Nat → List Nat)
    (hlossless : ∀ bs, gzipDecode (gzipEncode bs) = bs)
    (output_dir purged_file : String) (purgedBytes : List Nat) (chunk : Nat) :
    gzipDecode ((compress_purged_file output_dir purged_file purgedBytes chunk
      gzipEncode).gzBytes) = purgedBytes := by
  simp [compress_purged_file, copyFileObj_eq, hlossless]

theorem compress_roundtrip_witness :
    (fun bs : List Nat => bs)
        ((compress_purged_file "out" "a-purged.css" [10, 20, 30] 4
          (fun bs : List Nat => bs)).gzBytes) = [10, 20, 30] :=
  compress_roundtrip (fun bs => bs) (fun bs => bs) (fun _ => rfl) "out"
    "a-purged.css" [10, 20, 30] 4

/-! ## The claims about the comma splitting -/

/-- C6 counterexample: the element " admin.css " of the comma-split loses its
trailing space as well — `strip(' ')` trims both ends, so the result is NOT
"admin.css ". -/
theorem comma_split_cex :
    parseCommaList "style.css, admin.css " = ["style.css", "admin.css"]
    ∧ (parseCommaList "style.css, admin.css "
        == ["style.css", "admin.css "]) = false := by
  refine ⟨?_, ?_⟩ <;> decide

/-- C6 (amended): every element of the comma-split is the raw piece with its
leading AND trailing space characters removed: the raw piece is spaces, then
the element, then spaces, and the element neither starts nor ends with a
space. -/
theorem comma_split_strips_both_ends (s t : String) :
    parseCommaList s = (pySplitComma s).map pyStrip
    ∧ ∃ a b : Nat,
        t.toList = List.replicate a ' ' ++ (pyStrip t).toList ++
          List.replicate b ' '
        ∧ (pyStrip t).toList.head? ≠ some ' '
        ∧ (pyStrip t).toList.getLast? ≠ some ' ' :=
  ⟨rfl, pyStrip_decomp t⟩

/-! ## The claim about the orchestrator's success heuristic -/

/-- C3: in `main`'s loop, compression happens for a CSS file IF AND ONLY IF
both captured streams of its purge invocation are empty strings; when not,
both streams are reported verbatim and no compression happens; the loop
continues with the remaining configured files either way; and the decision
depends only on the two streams — two runners agreeing on stdout and stderr
(with any exit statuses) produce identical loops, so the exit status is never
inspected. -/
theorem orchestrator_success_heuristic (run run2 : String → CompletedProcess)
    (glob_patterns : List String) (output_dir : String) (isfile : String → Bool)
    (isWindows : Bool) (bytesOf : String → List Nat) (chunk : Nat)
    (gzipEncode : List Nat → List Nat) (css_file : String) (rest : List String) :
    mainLoop run glob_patterns output_dir isfile isWindows bytesOf chunk
        gzipEncode (css_file :: rest)
      = process_css_file run glob_patterns output_dir isfile isWindows bytesOf
          chunk gzipEncode css_file
        :: mainLoop run glob_patterns output_dir isfile isWindows bytesOf chunk
            gzipEncode rest
    ∧ ((∃ a b, process_css_file run glob_patterns output_dir isfile isWindows
          bytesOf chunk gzipEncode css_file = FileEvent.compressed a b)
        ↔ ((purge_css_file glob_patterns css_file output_dir (isfile css_file)
              isWindows run).result.stdout = ""
            ∧ (purge_css_file glob_patterns css_file output_dir (isfile css_file)
                isWindows run).result.stderr = ""))
    ∧ (((purge_css_file glob_patterns css_file output_dir (isfile css_file)
            isWindows run).result.stdout = ""
          ∧ (purge_css_file glob_patterns css_file output_dir (isfile css_file)
              isWindows run).result.stderr = "")
        → process_css_file run glob_patterns output_dir isfile isWindows bytesOf
            chunk gzipEncode css_file
          = FileEvent.compressed
              (purge_css_file glob_patterns css_file output_dir (isfile css_file)
                isWindows run).outputFilename
              (output_dir ++ "/" ++
                (purge_css_file glob_patterns css_file output_dir (isfile css_file)
                  isWindows run).outputFilename))
    ∧ (¬ ((purge_css_file glob_patterns css_file output_dir (isfile css_file)
            isWindows run).result.stdout = ""
          ∧ (purge_css_file glob_patterns css_file output_dir (isfile css_file)
              isWindows run).result.stderr = "")
        → process_css_file run glob_patterns output_dir isfile isWindows bytesOf
            chunk gzipEncode css_file
          = FileEvent.reportedFailure
              (purge_css_file glob_patterns css_file output_dir (isfile css_file)
                isWindows run).result.stdout
              (purge_css_file glob_patterns css_file output_dir (isfile css_file)
                isWindows run).result.stderr)
    ∧ ((∀ cmd, (run cmd).stdout = (run2 cmd).stdout
          ∧ (run cmd).stderr = (run2 cmd).stderr)
        → mainLoop run glob_patterns output_dir isfile isWindows bytesOf chunk
            gzipEncode (css_file :: rest)
          = mainLoop run2 glob_patterns output_dir isfile isWindows bytesOf chunk
              gzipEncode (css_file :: rest)) := by
  have hproc : ∀ (r : String → CompletedProcess) (css : String),
      process_css_file r glob_patterns output_dir isfile isWindows bytesOf chunk
          gzipEncode css
        = if (purge_css_file glob_patterns css output_dir (isfile css) isWindows
                r).result.stdout == ""
              && (purge_css_file glob_patterns css output_dir (isfile css)
                  isWindows r).result.stderr == "" then
            FileEvent.compressed
              (purge_css_file glob_patterns css output_dir (isfile css) isWindows
                r).outputFilename
              (output_dir ++ "/" ++
                (purge_css_file glob_patterns css output_dir (isfile css)
                  isWindows r).outputFilename)
          else
            FileEvent.reportedFailure
              (purge_css_file glob_patterns css output_dir (isfile css) isWindows
                r).result.stdout
              (purge_css_file glob_patterns css output_dir (isfile css) isWindows
                r).result.stderr :=
    fun r css => rfl
  refine ⟨rfl, ?_, ?_, ?_, ?_⟩
  · constructor
    · rintro ⟨a, b, hab⟩
      rw [hproc run css_file] at hab
      by_cases hb : ((purge_css_file glob_patterns css_file output_dir
            (isfile css_file) isWindows run).result.stdout == ""
          && (purge_css_file glob_patterns css_file output_dir (isfile css_file)
              isWindows run).result.stderr == "") = true
      · simpa [Bool.and_eq_true, beq_iff_eq] using hb
      · rw [if_neg hb] at hab
        cases hab
    · rintro ⟨hs, he⟩
      exact ⟨_, _, by rw [hproc run css_file, if_pos (by simp [hs, he])]⟩
  · rintro ⟨hs, he⟩
    rw [hproc run css_file, if_pos (by simp [hs, he])]
  · intro hne
    rw [hproc run css_file, if_neg ?_]
    simpa [Bool.and_eq_true, beq_iff_eq] using hne
  · intro hsame
    have hpt : ∀ css, process_css_file run glob_patterns output_dir isfile
          isWindows bytesOf chunk gzipEncode css
        = process_css_file run2 glob_patterns output_dir isfile isWindows bytesOf
            chunk gzipEncode css := by
      intro css
      have h1 : (purge_css_file glob_patterns css output_dir (isfile css)
            isWindows run).result.stdout
          = (purge_css_file glob_patterns css output_dir (isfile css) isWindows
              run2).result.stdout :=
        (hsame ((purge_css_file glob_patterns css output_dir (isfile css)
          isWindows run).npxCommand)).1
      have h2 : (purge_css_file glob_patterns css output_dir (isfile css)
            isWindows run).result.stderr
          = (purge_css_file glob_patterns css output_dir (isfile css) isWindows
              run2).result.stderr :=
        (hsame ((purge_css_file glob_patterns css output_dir (isfile css)
          isWindows run).npxCommand)).2
      have h3 : (purge_css_file glob_patterns css output_dir (isfile css)
            isWindows run).outputFilename
          = (purge_css_file glob_patterns css output_dir (isfile css) isWindows
              run2).outputFilename := rfl
      rw [hproc run css, hproc run2 css, h1, h2, h3]
    simp only [mainLoop]
    exact List.map_congr_left (fun css _ => hpt css)

/-! ## The claims about the configuration loader -/

/-- C4: at a `settings.cfg` whose `[SETTINGS]` section is empty (the required
key `input_css_files` missing), `load_and_check_config` raises
`InvalidConfigFile` — the error propagates out of `main` uncaught, so `main`
never returns `None` to its caller and never prints its
`Config file set incorrectly.` message. -/
theorem load_config_failure_raises :
    load_and_check_config (ReadOutcome.parsed (ConfigParser.mk []))
        "settings.cfg"
      = Except.error (ConfigError.checkError
          "Error while checking config: Missing or empty key input_css_files in [OPTIONS]")
    ∧ mainRun emptySettingsEnv
      = MainResult.uncaught (ConfigError.checkError
          "Error while checking config: Missing or empty key input_css_files in [OPTIONS]") :=
  ⟨rfl, rfl⟩

/-- C10: `check_config` never returns `False` — it returns `True` or raises —
so the `else` branch of `load_and_check_config` raising
`Invalid configuration in ...` is unreachable: no input produces that error. -/
theorem check_config_never_false (config : ConfigParser)
    (fileRead : ReadOutcome) (filename : String) :
    isOkFalse (check_config config) = false
    ∧ isInvalidConfigError (load_and_check_config fileRead filename) = false := by
  constructor
  · unfold check_config
    cases firstBadKey config options_required_keys <;> rfl
  · cases fileRead with
    | notFound => rfl
    | readFail msg => rfl
    | parsed c =>
      simp only [load_and_check_config]
      rcases hk : firstBadKey c options_required_keys with _ | key
      · simp [check_config, hk, isInvalidConfigError]
      · simp [check_config, hk, isInvalidConfigError]

end Downsizer
